import Mathlib

/-!
Verification development for the text-highlighting and note-saving system
of src/notes.js.  The DOM is shallowly embedded as a tree of element and
text nodes; nodes are addressed by the list of child indices from the
root.  Each function of the source file is translated into a Lean
function over this tree; DOM primitives used by the source (XPath
evaluation, TreeWalker enumeration, Range construction, localStorage)
are modelled from their standard semantics.  JavaScript strings are
modelled as Lean strings (sequences of characters).
-/

/-- A DOM node: an element with a tag name and an ordered child list, or a
text node carrying its character data.  Attributes (such as class names)
are not modelled: no function of the source reads them back. -/
inductive Node where
  | text (s : String)
  | elem (tag : String) (children : List Node)
deriving Repr

/-- An address of a node: the list of child indices from the root. -/
abbrev Addr := List Nat

/-- Look a node up by its address. -/
def getNode : Node → Addr → Option Node
  | n, [] => some n
  | Node.elem _ cs, i :: rest =>
    match cs.get? i with
    | some c => getNode c rest
    | none => none
  | Node.text _, _ :: _ => none

/-- Replace the node at an address, rebuilding the spine. -/
def setNode : Node → Addr → Node → Option Node
  | _, [], m => some m
  | Node.elem t cs, i :: rest, m =>
    match cs.get? i with
    | some c =>
      match setNode c rest m with
      | some c2 => some (Node.elem t (cs.set i c2))
      | none => none
    | none => none
  | Node.text _, _ :: _, _ => none

/-- JavaScript String.prototype.substring(a, b) for 0 <= a <= b (the only
way the source calls it): the characters in positions [a, b). -/
def jsSubstring (s : String) (a b : Nat) : String :=
  String.mk ((s.data.drop a).take (b - a))

/-- JavaScript String.prototype.substring(a): the suffix from position a. -/
def strDrop (s : String) (a : Nat) : String :=
  String.mk (s.data.drop a)

/-- Containment of a needle in a haystack over character lists, the model
of JavaScript String.prototype.includes. -/
def listContains (needle : List Char) : List Char → Bool
  | [] => needle.isEmpty
  | c :: t => needle.isPrefixOf (c :: t) || listContains needle t

/-- hay.includes(needle) of JavaScript. -/
def strContains (hay needle : String) : Bool :=
  listContains needle.data hay.data

/-- JavaScript String.prototype.trim: strip whitespace from both ends. -/
def jsTrim (s : String) : String :=
  String.mk (((s.data.dropWhile Char.isWhitespace).reverse.dropWhile Char.isWhitespace).reverse)

/-- The tag of an element node, none for a text node.  Used to model the
nodeName comparisons of the source restricted to element nodes. -/
def tagOf : Node → Option String
  | Node.elem t _ => some t
  | Node.text _ => none

/-- The sibling index computed by the while-loop of getXPath
(src/notes.js lines 131-140): the number of preceding siblings that are
element nodes with the same tag name, for the child at position i. -/
def sameTagIndex : List Node → Nat → String → Nat
  | _, 0, _ => 0
  | [], _ + 1, _ => 0
  | c :: cs, i + 1, t => (if tagOf c = some t then 1 else 0) + sameTagIndex cs i t

/-- The k-th element child (0-based) carrying a given tag, together with
its position in the child list.  This is the per-step lookup performed by
the XPath engine on a location step tag[k+1]. -/
def findNthTagged : List Node → String → Nat → Option (Nat × Node)
  | [], _, _ => none
  | c :: cs, t, k =>
    if tagOf c = some t then
      match k with
      | 0 => some (0, c)
      | k' + 1 =>
        match findNthTagged cs t k' with
        | some p => some (p.1 + 1, p.2)
        | none => none
    else
      match findNthTagged cs t k with
      | some p => some (p.1 + 1, p.2)
      | none => none

/-- The list of XPath steps (tag name, same-tag sibling index) produced by
getXPath (src/notes.js lines 124-150) for the element at the given
address below a given node, excluding the step of that node itself. -/
def stepsFrom : Node → Addr → Option (List (String × Nat))
  | _, [] => some []
  | Node.text _, _ :: _ => none
  | Node.elem _ cs, i :: rest =>
    match cs.get? i with
    | some (Node.elem t cs2) =>
      match stepsFrom (Node.elem t cs2) rest with
      | some ss => some ((t, sameTagIndex cs i t) :: ss)
      | none => none
    | _ => none

/-- The XPath of the element at an address: the root step (the document
element, always index 0 below the document) followed by the steps down to
the element.  Models the string "/html/body/p[2]/..." that getXPath
returns, kept as a structured list of steps. -/
def xpathOfElem (root : Node) (addr : Addr) : Option (List (String × Nat)) :=
  match root with
  | Node.text _ => none
  | Node.elem t _ =>
    match stepsFrom root addr with
    | some ss => some ((t, 0) :: ss)
    | none => none

/-- getXPath of src/notes.js lines 124-150: for a text node the walk
starts at its parent element (line 125-127), then each ancestor
contributes a (tag, same-tag sibling index) step. -/
def getXPath (root : Node) (addr : Addr) : Option (List (String × Nat)) :=
  match getNode root addr with
  | some (Node.text _) => xpathOfElem root addr.dropLast
  | some (Node.elem _ _) => xpathOfElem root addr
  | none => none

/-- Resolution of a list of XPath steps below a node: at each level the
k-th element child with the given tag is selected.  Models
document.evaluate with FIRST_ORDERED_NODE_TYPE on the paths produced by
getXPath (src/notes.js lines 168-182). -/
def resolveSteps : Node → List (String × Nat) → Option Addr
  | _, [] => some []
  | Node.text _, _ :: _ => none
  | Node.elem _ cs, (t, k) :: rest =>
    match findNthTagged cs t k with
    | some (i, c) =>
      match resolveSteps c rest with
      | some a => some (i :: a)
      | none => none
    | none => none

/-- getNodeByXPath of src/notes.js lines 168-182: the first step must name
the document element (at index 0 below the document); the remaining steps
are resolved downwards.  A path that cannot be satisfied yields none (the
source returns null, its catch branch also returns null). -/
def getNodeByXPath (root : Node) (steps : List (String × Nat)) : Option Addr :=
  match root, steps with
  | Node.elem rt _, (t, k) :: rest =>
    if t = rt ∧ k = 0 then resolveSteps root rest else none
  | _, _ => none

/-- getContextText of src/notes.js lines 155-163: for a text node, the
characters from max(0, offset - 20) to min(length, offset + 20); for any
other node, the empty string. -/
def getContextText (node : Node) (offset : Nat) : String :=
  match node with
  | Node.text t => jsSubstring t (offset - 20) (min t.length (offset + 20))
  | Node.elem _ _ => ""

mutual
/-- The text nodes at or below a node, in document order, each with its
address relative to that node.  Model of a TreeWalker with SHOW_TEXT. -/
def textNodesFrom : Node → List (Addr × String)
  | Node.text s => [([], s)]
  | Node.elem _ cs => textNodesFromList 0 cs

/-- The text nodes below the children of an element starting at child
position i, in document order. -/
def textNodesFromList : Nat → List Node → List (Addr × String)
  | _, [] => []
  | i, c :: cs =>
    (textNodesFrom c).map (fun q => (i :: q.1, q.2)) ++ textNodesFromList (i + 1) cs
end

/-- The text-node descendants of a node in document order (the node
itself excluded, as a TreeWalker rooted at it never returns the root). -/
def textDescendants : Node → List (Addr × String)
  | Node.text _ => []
  | Node.elem _ cs => textNodesFromList 0 cs

/-- The matching test of the while-loop of findTextNode (src/notes.js
lines 229-235): a long snippet (over 20 characters) matches if the
candidate contains the snippet stripped of its first 10 and last 10
characters; a short snippet must be contained verbatim. -/
def contextMatches (ctx : String) (s : String) : Bool :=
  if 20 < ctx.length then strContains s (jsSubstring ctx 10 (ctx.length - 10))
  else strContains s ctx

/-- findTextNode of src/notes.js lines 220-240: scan the text-node
descendants of the element in document order and return the first one
matching the context snippet; if none matches, fall back to the first
text-node descendant (none when the element has no text descendants). -/
def findTextNode (e : Node) (ctx : String) : Option (Addr × String) :=
  match (textDescendants e).find? (fun q => contextMatches ctx q.2) with
  | some q => some q
  | none => (textDescendants e).head?

/-- A DOM Range restricted to what the source stores and rebuilds: a
start boundary (container address, offset) and an end boundary. -/
structure DocRange where
  sa : Addr
  so : Nat
  ea : Addr
  eo : Nat
deriving Repr, DecidableEq

/-- A Selection as consumed by createNote: the range of getRangeAt(0),
the collapsed flag, and the string that selection.toString() reports. -/
structure Selection where
  isCollapsed : Bool
  sa : Addr
  so : Nat
  ea : Addr
  eo : Nat
  str : String
deriving Repr, DecidableEq

/-- The position record built by getPositionInfo (src/notes.js lines
107-119), the AnchorDescriptor of the spec. -/
structure PositionInfo where
  startXPath : List (String × Nat)
  endXPath : List (String × Nat)
  startOffset : Nat
  endOffset : Nat
  startText : String
  endText : String
deriving Repr, DecidableEq

/-- A Note record as built by createNote (src/notes.js lines 89-95). -/
structure Note where
  id : String
  text : String
  timestamp : Nat
  url : String
  position : PositionInfo
deriving Repr, DecidableEq

/-- getPositionInfo of src/notes.js lines 107-119.  In the source the
container nodes and their XPaths always exist for a live range; the
Option covers addresses outside the tree, which a live range never
produces. -/
def getPositionInfo (doc : Node) (r : DocRange) : Option PositionInfo :=
  match getNode doc r.sa, getNode doc r.ea, getXPath doc r.sa, getXPath doc r.ea with
  | some sn, some en, some sp, some ep =>
    some { startXPath := sp, endXPath := ep,
           startOffset := r.so, endOffset := r.eo,
           startText := getContextText sn r.so,
           endText := getContextText en r.eo }
  | _, _, _, _ => none

/-- createNote of src/notes.js lines 78-101.  ts models Date.now() (also
used as the id prefix through toString), rand models the digit string of
Math.random().toString().substring(2), url models getCurrentPageUrl().
The push into the in-memory list and the saveNotes call are modelled by
the list operations below. -/
def createNote (doc : Node) (sel : Selection) (ts : Nat) (rand : String)
    (url : String) : Option Note :=
  if sel.isCollapsed then none
  else
    if jsTrim sel.str = "" then none
    else
      match getPositionInfo doc { sa := sel.sa, so := sel.so, ea := sel.ea, eo := sel.eo } with
      | some position =>
        some { id := Nat.repr ts ++ rand, text := jsTrim sel.str,
               timestamp := ts, url := url, position := position }
      | none => none

/-- Document order on text-node boundary points, via the position of the
container in the document-order list of text nodes. -/
def posLe (doc : Node) (a : Addr × Nat) (b : Addr × Nat) : Bool :=
  match (textNodesFrom doc).findIdx? (fun q => q.1 == a.1),
        (textNodesFrom doc).findIdx? (fun q => q.1 == b.1) with
  | some i, some j => decide (i < j) || (i == j && decide (a.2 ≤ b.2))
  | _, _ => false

/-- Range.setStart followed by Range.setEnd on a fresh range: when the
end point lies before the start point the range collapses to the end
point, otherwise the two points are kept. -/
def mkRange (doc : Node) (sa : Addr) (so : Nat) (ea : Addr) (eo : Nat) : DocRange :=
  if posLe doc (sa, so) (ea, eo) then { sa := sa, so := so, ea := ea, eo := eo }
  else { sa := ea, so := eo, ea := ea, eo := eo }

/-- locateNote of src/notes.js lines 187-215: resolve both XPaths, search
both context snippets, then build the range; every failure (an
unresolvable path, a missing text node, or an offset beyond the resolved
text, which makes setStart or setEnd throw into the catch) yields none,
the model of the null sentinel. -/
def locateNote (doc : Node) (note : Note) : Option DocRange :=
  match getNodeByXPath doc note.position.startXPath with
  | none => none
  | some sna =>
    match getNodeByXPath doc note.position.endXPath with
    | none => none
    | some ena =>
      match getNode doc sna, getNode doc ena with
      | some sN, some eN =>
        match findTextNode sN note.position.startText with
        | none => none
        | some (sra, st) =>
          match findTextNode eN note.position.endText with
          | none => none
          | some (era, et) =>
            if note.position.startOffset ≤ st.length then
              if note.position.endOffset ≤ et.length then
                some (mkRange doc (sna ++ sra) note.position.startOffset
                                  (ena ++ era) note.position.endOffset)
              else none
            else none
      | _, _ => none

/-- The text content of a range over text-node boundaries (the model of
Range.toString and of what a Selection over the range stringifies to):
the suffix of the start node from the start offset, the full middle text
nodes in document order, and the prefix of the end node up to the end
offset. -/
def rangeTextStr (doc : Node) (sa : Addr) (so : Nat) (ea : Addr) (eo : Nat) : Option String :=
  let tns := textNodesFrom doc
  match tns.findIdx? (fun q => q.1 == sa), tns.findIdx? (fun q => q.1 == ea) with
  | some i, some j =>
    if i = j then
      match tns.get? i with
      | some q => some (jsSubstring q.2 so eo)
      | none => none
    else
      if i < j then
        match tns.get? i, tns.get? j with
        | some qs, some qe =>
          some (strDrop qs.2 so
                ++ String.join (((tns.drop (i + 1)).take (j - i - 1)).map (fun q => q.2))
                ++ jsSubstring qe.2 0 eo)
        | _, _ => none
      else none
  | _, _ => none

/-- saveNotes of src/notes.js lines 57-73 on the persisted global
collection: drop every stored entry of the current page, then append the
in-memory notes of that page. -/
def saveNotes (stored : List Note) (currentUrl : String) (notes : List Note) : List Note :=
  stored.filter (fun n => n.url != currentUrl) ++ notes

/-- deleteNote of src/notes.js lines 298-302 on the in-memory list. -/
def deleteNote (notes : List Note) (noteId : String) : List Note :=
  notes.filter (fun n => n.id != noteId)

/-- Range.surroundContents with a fresh span wrapper, modelled from the
DOM specification for the range shapes this development reaches: both
boundaries in one text node (the node is split and the middle wrapped),
or both boundaries in one element (the child slice is wrapped).  In both
shapes no non-text node is partially contained, so the DOM never throws
here; offsets beyond the container make the DOM throw, modelled as none.
After wrapping, the range selects the new wrapper, as the DOM
specification prescribes. -/
def surroundContents (doc : Node) (r : DocRange) : Option (Node × DocRange) :=
  if r.sa = r.ea then
    match getNode doc r.sa with
    | some (Node.text t) =>
      if r.so ≤ r.eo ∧ r.eo ≤ t.length then
        match r.sa.getLast? with
        | none => none
        | some i =>
          match getNode doc r.sa.dropLast with
          | some (Node.elem pt pcs) =>
            match setNode doc r.sa.dropLast
              (Node.elem pt
                (pcs.take i ++
                  Node.text (jsSubstring t 0 r.so) ::
                  Node.elem "span" [Node.text (jsSubstring t r.so r.eo)] ::
                  Node.text (strDrop t r.eo) ::
                  pcs.drop (i + 1))) with
            | some d => some (d, { sa := r.sa.dropLast, so := i + 1,
                                   ea := r.sa.dropLast, eo := i + 2 })
            | none => none
          | _ => none
      else none
    | some (Node.elem t cs) =>
      if r.so ≤ r.eo ∧ r.eo ≤ cs.length then
        match setNode doc r.sa
          (Node.elem t
            (cs.take r.so ++
              Node.elem "span" ((cs.drop r.so).take (r.eo - r.so)) ::
              cs.drop r.eo)) with
        | some d => some (d, { sa := r.sa, so := r.so, ea := r.sa, eo := r.so + 1 })
        | none => none
      else none
    | none => none
  else none

/-- highlightRange of src/notes.js lines 284-293: wrap the range contents
in a span; when surroundContents throws, the catch leaves the document
unchanged (the DOM check precedes any mutation).  The class attribute of
the span is not modelled (nothing in the source reads it back). -/
def highlightRange (doc : Node) (r : DocRange) : Node × DocRange :=
  match surroundContents doc r with
  | some p => p
  | none => (doc, r)

/-! Concrete documents and values used by counterexamples and witnesses. -/

/-- A page whose single paragraph holds the text " hello " (leading and
trailing blanks). -/
def doc1 : Node :=
  Node.elem "html" [Node.elem "body" [Node.elem "p" [Node.text " hello "]]]

/-- The selection of the whole text node " hello " of doc1. -/
def sel1 : Selection :=
  { isCollapsed := false, sa := [0, 0, 0], so := 0, ea := [0, 0, 0], eo := 7, str := " hello " }

/-- A page whose single paragraph holds the text "hello". -/
def doc2 : Node :=
  Node.elem "html" [Node.elem "body" [Node.elem "p" [Node.text "hello"]]]

/-- The selection of the whole text node "hello" of doc2. -/
def sel2 : Selection :=
  { isCollapsed := false, sa := [0, 0, 0], so := 0, ea := [0, 0, 0], eo := 5, str := "hello" }

/-- The position record createNote builds for sel2 on doc2. -/
def posW : PositionInfo :=
  { startXPath := [("html", 0), ("body", 0), ("p", 0)],
    endXPath := [("html", 0), ("body", 0), ("p", 0)],
    startOffset := 0, endOffset := 5, startText := "hello", endText := "hello" }

/-- The note createNote builds on doc2 from sel2 with ts = 1, rand = "a". -/
def noteW1 : Note :=
  { id := "1a", text := "hello", timestamp := 1, url := "/g", position := posW }

/-- The note createNote builds on doc2 from sel2 with ts = 2, rand = "a". -/
def noteW2 : Note :=
  { id := "2a", text := "hello", timestamp := 2, url := "/g", position := posW }

/-- The note createNote builds on doc1 from sel1 with ts = 7, rand = "x":
the stored text is trimmed while the anchored span still covers the
untrimmed " hello ". -/
def note1 : Note :=
  { id := "7x", text := "hello", timestamp := 7, url := "/g",
    position := { startXPath := [("html", 0), ("body", 0), ("p", 0)],
                  endXPath := [("html", 0), ("body", 0), ("p", 0)],
                  startOffset := 0, endOffset := 7,
                  startText := " hello ", endText := " hello " } }

/-- The note createNote builds on doc2 from sel2 with ts = 7, rand = "x". -/
def noteW3 : Note := { id := "7x", text := "hello", timestamp := 7, url := "/g", position := posW }

/-- A note whose stored XPaths do not resolve on doc2. -/
def noteBad : Note :=
  { id := "b", text := "t", timestamp := 0, url := "/g",
    position := { startXPath := [("div", 0)], endXPath := [("div", 0)],
                  startOffset := 0, endOffset := 0, startText := "", endText := "" } }

/-- An empty position record for store-level examples. -/
def posEmpty : PositionInfo :=
  { startXPath := [], endXPath := [], startOffset := 0, endOffset := 0,
    startText := "", endText := "" }

/-- A note of document /a. -/
def nA : Note := { id := "a1", text := "x", timestamp := 0, url := "/a", position := posEmpty }

/-- A second note of document /a. -/
def nA2 : Note := { id := "a2", text := "z", timestamp := 0, url := "/a", position := posEmpty }

/-- A note of document /b. -/
def nB : Note := { id := "b1", text := "y", timestamp := 0, url := "/b", position := posEmpty }

/-- A 40-character text. -/
def s40 : String := "0123456789012345678901234567890123456789"

/-- A paragraph holding the text "hello", root of the highlight example. -/
def docA : Node := Node.elem "p" [Node.text "hello"]

/-- docA after the span wrapper is put around characters 1 to 4. -/
def docB : Node :=
  Node.elem "p" [Node.text "h", Node.elem "span" [Node.text "ell"], Node.text "o"]

/-- docB after a second wrapper is put around the first one. -/
def docC : Node :=
  Node.elem "p" [Node.text "h", Node.elem "span" [Node.elem "span" [Node.text "ell"]], Node.text "o"]

/-! Helper lemmas. -/

/-- find? returns the entry at index k when it matches and all earlier
entries do not. -/
theorem find?_first_of_earlier_false {α : Type} (p : α → Bool) :
    ∀ (l : List α) (k : Nat) (a : α), l.get? k = some a → p a = true →
      (∀ j b, j < k → l.get? j = some b → p b = false) →
      l.find? p = some a := by
  intro l
  induction l with
  | nil => intro k a hk _ _; simp at hk
  | cons c t ih =>
    intro k a hk ha hfirst
    cases k with
    | zero =>
      rw [List.get?_cons_zero] at hk
      cases hk
      exact List.find?_cons_of_pos _ ha
    | succ k =>
      have hc : p c = false := hfirst 0 c (Nat.succ_pos k) List.get?_cons_zero
      rw [List.find?_cons_of_neg _ (by simp [hc])]
      exact ih k a (by simpa using hk) ha
        (fun j b hj hb => hfirst (j + 1) b (Nat.succ_lt_succ hj) (by simpa using hb))

/-- Every string contains the empty string. -/
theorem strContains_empty (s : String) : strContains s "" = true := by
  show listContains "".data s.data = true
  cases s.data with
  | nil => rfl
  | cons c t => simp [listContains, List.isPrefixOf]

/-- Inversion of a successful createNote call: the fields of the produced
note. -/
theorem createNote_inv {doc : Node} {sel : Selection} {ts : Nat} {rand url : String}
    {note : Note} (h : createNote doc sel ts rand url = some note) :
    note.id = Nat.repr ts ++ rand ∧ note.text = jsTrim sel.str ∧
    note.timestamp = ts ∧ note.url = url ∧
    ∃ pos, getPositionInfo doc { sa := sel.sa, so := sel.so, ea := sel.ea, eo := sel.eo } = some pos ∧
      note.position = pos := by
  unfold createNote at h
  split at h
  · simp at h
  · split at h
    · simp at h
    · cases hp : getPositionInfo doc { sa := sel.sa, so := sel.so, ea := sel.ea, eo := sel.eo } with
      | none => rw [hp] at h; simp at h
      | some pos =>
        rw [hp] at h
        injection h with h
        subst h
        exact ⟨rfl, rfl, rfl, rfl, pos, rfl, rfl⟩

/-! Claim theorems. -/

/-- Claim C2 (confirmed): findTextNode scans the text-node descendants of
the container in document order and returns the first one matching the
snippet rule of contextMatches (whole snippet when its length is at most
20, the snippet stripped of its first 10 and last 10 characters when
longer); when no descendant matches it returns the first text-node
descendant (the head of the document-order list, none only when the
container has no text descendant at all). -/
theorem findTextNode_first_match_and_fallback (e : Node) (ctx : String) :
    (∀ k q, (textDescendants e).get? k = some q → contextMatches ctx q.2 = true →
        (∀ j r, j < k → (textDescendants e).get? j = some r → contextMatches ctx r.2 = false) →
        findTextNode e ctx = some q) ∧
    ((∀ q ∈ textDescendants e, contextMatches ctx q.2 = false) →
        findTextNode e ctx = (textDescendants e).head?) := by
  constructor
  · intro k q hk hq hfirst
    unfold findTextNode
    rw [find?_first_of_earlier_false _ _ k q hk hq hfirst]
  · intro hall
    unfold findTextNode
    have h : (textDescendants e).find? (fun q => contextMatches ctx q.2) = none := by
      rw [List.find?_eq_none]
      intro x hx
      simp [hall x hx]
    rw [h]

/-- Witness for C2: on a paragraph with the single text node "hello" the
snippet "hello" matches the first descendant. -/
theorem findTextNode_first_match_witness :
    findTextNode (Node.elem "p" [Node.text "hello"]) "hello" = some ([0], "hello") :=
  (findTextNode_first_match_and_fallback (Node.elem "p" [Node.text "hello"]) "hello").1
    0 ([0], "hello") rfl (by decide)
    (fun j r hj _ => absurd hj (Nat.not_lt_zero j))

/-- Claim C4 (confirmed): saveNotes for document A leaves the stored
entries of every other document B untouched: the B-subsequence of the
store (order, content and multiplicity) is unchanged. -/
theorem saveNotes_preserves_other_documents (stored notes : List Note) (A B : String)
    (hBA : B ≠ A) (hnotes : ∀ n ∈ notes, n.url = A) :
    (saveNotes stored A notes).filter (fun n => n.url == B) =
      stored.filter (fun n => n.url == B) := by
  unfold saveNotes
  rw [List.filter_append]
  have h2 : notes.filter (fun n => n.url == B) = [] := by
    rw [List.filter_eq_nil]
    intro n hn
    simp only [hnotes n hn, beq_iff_eq]
    exact fun h => hBA h.symm
  rw [h2, List.append_nil, List.filter_filter]
  apply List.filter_congr
  intro x _
  by_cases h : x.url = B
  · simp only [h, beq_self_eq_true, Bool.true_and, bne_iff_ne]
    simp only [ne_eq, decide_eq_true_eq]
    exact hBA
  · simp [h]

/-- Witness for C4: persisting the /a note keeps the /b entry intact. -/
theorem saveNotes_preserves_other_documents_witness :
    (saveNotes [nB] "/a" [nA]).filter (fun n => n.url == "/b") =
      [nB].filter (fun n => n.url == "/b") :=
  saveNotes_preserves_other_documents [nB] [nA] "/a" "/b" (by decide) (by decide)

/-- Claim C7 (confirmed): when the id occurs exactly once in the
in-memory list, deleteNote removes exactly that entry and keeps every
other entry, same-document ones included, in place. -/
theorem deleteNote_removes_exactly_one (l1 l2 : List Note) (x : Note)
    (h1 : ∀ y ∈ l1, y.id ≠ x.id) (h2 : ∀ y ∈ l2, y.id ≠ x.id) :
    deleteNote (l1 ++ x :: l2) x.id = l1 ++ l2 := by
  unfold deleteNote
  rw [List.filter_append]
  have e1 : l1.filter (fun n => n.id != x.id) = l1 := by
    rw [List.filter_eq_self]
    intro a ha
    simp [bne]
    exact h1 a ha
  have e2 : (x :: l2).filter (fun n => n.id != x.id) = l2 := by
    rw [List.filter_cons_of_neg (by simp)]
    rw [List.filter_eq_self]
    intro a ha
    simp [bne]
    exact h2 a ha
  rw [e1, e2]

/-- Witness for C7: deleting the /b note from a three-note list keeps
both /a notes. -/
theorem deleteNote_removes_exactly_one_witness :
    deleteNote ([nA] ++ nB :: [nA2]) nB.id = [nA] ++ [nA2] :=
  deleteNote_removes_exactly_one [nA] [nA2] nB (by decide) (by decide)

/-- Counterexample for C6: two createNote calls whose environment draws
are (Date.now = 1, random digits "23") and (Date.now = 12, random digits
"3") produce the same id "123", so the ids of a sequence of add calls
are not always pairwise distinct. -/
theorem createNote_id_collision :
    (createNote doc2 sel2 1 "23" "/g").map Note.id = some "123" ∧
    (createNote doc2 sel2 12 "3" "/g").map Note.id = some "123" :=
  ⟨by decide, by decide⟩

/-- Claim C6 (corrected): ids of distinct add calls are distinct provided
the decimal timestamp strings have equal length (as Date.now strings of
one era do) and the two calls differ in the timestamp string or in the
random digit string.  The unrestricted claim fails, see
createNote_id_collision. -/
theorem createNote_id_distinct {dA dB : Node} {selA selB : Selection}
    {ts1 ts2 : Nat} {r1 r2 url1 url2 : String} {n1 n2 : Note}
    (h1 : createNote dA selA ts1 r1 url1 = some n1)
    (h2 : createNote dB selB ts2 r2 url2 = some n2)
    (hlen : (Nat.repr ts1).length = (Nat.repr ts2).length)
    (hne : Nat.repr ts1 ≠ Nat.repr ts2 ∨ r1 ≠ r2) :
    n1.id ≠ n2.id := by
  rw [(createNote_inv h1).1, (createNote_inv h2).1]
  intro h
  have hd : (Nat.repr ts1).data ++ r1.data = (Nat.repr ts2).data ++ r2.data := by
    have hdata := congrArg String.data h
    rwa [String.data_append, String.data_append] at hdata
  obtain ⟨hts, hr⟩ := List.append_inj hd hlen
  rcases hne with hne | hne
  · exact hne (String.ext hts)
  · exact hne (String.ext hr)

/-- Witness for C6: timestamps 1 and 2 with the same random digits give
ids "1a" and "2a". -/
theorem createNote_id_distinct_witness : noteW1.id ≠ noteW2.id := by
  have h1 : createNote doc2 sel2 1 "a" "/g" = some noteW1 := by decide
  have h2 : createNote doc2 sel2 2 "a" "/g" = some noteW2 := by decide
  exact createNote_id_distinct h1 h2 rfl (Or.inl (by decide))

/-- Counterexample for C8: on a 40-character text node with the offset in
the middle, getContextText returns all 40 characters, so the snippet is
not limited to 20 characters. -/
theorem getContextText_length_counterexample :
    ¬ (getContextText (Node.text s40) 20).length ≤ 20 := by decide

/-- Claim C8 (corrected): the context snippet is the text immediately
surrounding the offset, clipped at the node boundaries, with at most 20
characters on each side, hence at most 40 characters in total (the
unrestricted 20-character bound fails, see
getContextText_length_counterexample). -/
theorem getContextText_window (t : String) (off : Nat) (hoff : off ≤ t.length) :
    ∃ pre post : List Char,
      t.data = pre ++ (getContextText (Node.text t) off).data ++ post ∧
      pre.length = off - 20 ∧
      off - pre.length ≤ 20 ∧
      (getContextText (Node.text t) off).length ≤ 40 ∧
      (getContextText (Node.text t) off).length - (off - pre.length) ≤ 20 := by
  have hL : t.length = t.data.length := rfl
  rw [hL] at hoff
  refine ⟨t.data.take (off - 20), t.data.drop (min t.length (off + 20)), ?_, ?_, ?_, ?_, ?_⟩
  · show t.data = _ ++ ((t.data.drop (off - 20)).take (min t.length (off + 20) - (off - 20))) ++ _
    have hdrop : t.data.drop (min t.length (off + 20)) =
        (t.data.drop (off - 20)).drop (min t.length (off + 20) - (off - 20)) := by
      rw [List.drop_drop]
      congr 1
      rw [hL]
      omega
    rw [hdrop, List.append_assoc, List.take_append_drop, List.take_append_drop]
  · rw [List.length_take]
    omega
  · rw [List.length_take]
    omega
  · show ((t.data.drop (off - 20)).take (min t.length (off + 20) - (off - 20))).length ≤ 40
    rw [List.length_take, List.length_drop, hL]
    omega
  · show ((t.data.drop (off - 20)).take (min t.length (off + 20) - (off - 20))).length -
        (off - (t.data.take (off - 20)).length) ≤ 20
    rw [List.length_take, List.length_take, List.length_drop, hL]
    omega

/-- Witness for C8: the window around offset 1 of "ab". -/
theorem getContextText_window_witness :
    ∃ pre post : List Char,
      "ab".data = pre ++ (getContextText (Node.text "ab") 1).data ++ post ∧
      pre.length = 1 - 20 ∧
      1 - pre.length ≤ 20 ∧
      (getContextText (Node.text "ab") 1).length ≤ 40 ∧
      (getContextText (Node.text "ab") 1).length - (1 - pre.length) ≤ 20 :=
  getContextText_window "ab" 1 (by decide)

/-- Claim C10 (confirmed): an element boundary container stores the empty
string as its context snippet, and relocation with an empty snippet
returns the first text-node descendant of the resolved container (the
empty string is contained in every candidate, so the first candidate of
the document-order scan wins, which coincides with the fallback). -/
theorem element_boundary_first_text_node :
    (∀ tag cs off, getContextText (Node.elem tag cs) off = "") ∧
    (∀ e : Node, findTextNode e "" = (textDescendants e).head?) := by
  constructor
  · intro tag cs off
    rfl
  · intro e
    unfold findTextNode
    cases h : textDescendants e with
    | nil => simp
    | cons a l =>
      rw [List.find?_cons_of_pos]
      · rfl
      · show contextMatches "" a.2 = true
        unfold contextMatches
        rw [if_neg (by simp [String.length])]
        exact strContains_empty a.2

/-- Claim C5 (confirmed): every failure inside locateNote is returned to
the caller as the sentinel none (the null of the source): an
unresolvable start or end path, a container without any text node to
match the snippet against, and a stored offset exceeding the resolved
text node (which would make setStart or setEnd throw, caught by the
surrounding try).  Together with locateNote being a total function into
Option, this is the propagation policy of the claim: no failure escapes
the boundary, all collapse into the single NotFound value. -/
theorem locateNote_failures_return_none (doc : Node) (note : Note) :
    (getNodeByXPath doc note.position.startXPath = none → locateNote doc note = none) ∧
    (getNodeByXPath doc note.position.endXPath = none → locateNote doc note = none) ∧
    (∀ sna sN, getNodeByXPath doc note.position.startXPath = some sna →
       getNode doc sna = some sN →
       findTextNode sN note.position.startText = none →
       locateNote doc note = none) ∧
    (∀ sna ena sN eN, getNodeByXPath doc note.position.startXPath = some sna →
       getNodeByXPath doc note.position.endXPath = some ena →
       getNode doc sna = some sN → getNode doc ena = some eN →
       findTextNode eN note.position.endText = none →
       locateNote doc note = none) ∧
    (∀ sna ena sN eN sra st, getNodeByXPath doc note.position.startXPath = some sna →
       getNodeByXPath doc note.position.endXPath = some ena →
       getNode doc sna = some sN → getNode doc ena = some eN →
       findTextNode sN note.position.startText = some (sra, st) →
       st.length < note.position.startOffset →
       locateNote doc note = none) ∧
    (∀ sna ena sN eN sra st era et, getNodeByXPath doc note.position.startXPath = some sna →
       getNodeByXPath doc note.position.endXPath = some ena →
       getNode doc sna = some sN → getNode doc ena = some eN →
       findTextNode sN note.position.startText = some (sra, st) →
       findTextNode eN note.position.endText = some (era, et) →
       et.length < note.position.endOffset →
       locateNote doc note = none) := by
  refine ⟨?_, ?_, ?_, ?_, ?_, ?_⟩
  · intro h
    simp only [locateNote, h]
  · intro h
    cases hs : getNodeByXPath doc note.position.startXPath with
    | none => simp only [locateNote, hs]
    | some sna => simp only [locateNote, hs, h]
  · intro sna sN h1 h2 h3
    cases he : getNodeByXPath doc note.position.endXPath with
    | none => simp only [locateNote, h1, he]
    | some ena =>
      cases hge : getNode doc ena with
      | none => simp only [locateNote, h1, he, h2, hge]
      | some eN => simp only [locateNote, h1, he, h2, hge, h3]
  · intro sna ena sN eN h1 h2 h3 h4 h5
    cases hfs : findTextNode sN note.position.startText with
    | none => simp only [locateNote, h1, h2, h3, h4, hfs]
    | some q =>
      obtain ⟨sra, st⟩ := q
      simp only [locateNote, h1, h2, h3, h4, hfs, h5]
  · intro sna ena sN eN sra st h1 h2 h3 h4 h5 hlt
    cases hfe : findTextNode eN note.position.endText with
    | none => simp only [locateNote, h1, h2, h3, h4, h5, hfe]
    | some q =>
      obtain ⟨era, et⟩ := q
      simp only [locateNote, h1, h2, h3, h4, h5, hfe]
      rw [if_neg (by omega)]
  · intro sna ena sN eN sra st era et h1 h2 h3 h4 h5 h6 hlt
    simp only [locateNote, h1, h2, h3, h4, h5, h6]
    by_cases hso : note.position.startOffset ≤ st.length
    · rw [if_pos hso, if_neg (by omega)]
    · rw [if_neg hso]

/-- Witness for C5: a stored path starting at a div does not resolve on
doc2 (whose document element is html), and locateNote reports none. -/
theorem locateNote_failures_return_none_witness : locateNote doc2 noteBad = none :=
  (locateNote_failures_return_none doc2 noteBad).1 rfl

/-- The sibling index recorded by getXPath re-selects the same child:
the (sameTagIndex cs i t)-th element child with tag t of cs is the child
at position i, when that child is an element with tag t. -/
theorem findNthTagged_sameTagIndex :
    ∀ (cs : List Node) (i : Nat) (c : Node) (t : String),
      cs.get? i = some c → tagOf c = some t →
      findNthTagged cs t (sameTagIndex cs i t) = some (i, c) := by
  intro cs
  induction cs with
  | nil => intro i c t h _; simp at h
  | cons hd tl ih =>
    intro i c t h ht
    cases i with
    | zero =>
      rw [List.get?_cons_zero] at h
      cases h
      simp [sameTagIndex, findNthTagged, ht]
    | succ i =>
      rw [List.get?_cons_succ] at h
      by_cases htag : tagOf hd = some t
      · have hs : sameTagIndex (hd :: tl) (i + 1) t = sameTagIndex tl i t + 1 := by
          simp [sameTagIndex, htag, Nat.add_comm]
        rw [hs]
        simp only [findNthTagged, if_pos htag]
        rw [ih i c t h ht]
      · have hs : sameTagIndex (hd :: tl) (i + 1) t = sameTagIndex tl i t := by
          simp [sameTagIndex, htag]
        rw [hs]
        simp only [findNthTagged, if_neg htag]
        rw [ih i c t h ht]

/-- The steps recorded for an element resolve back to the same address on
the unmodified document. -/
theorem stepsFrom_resolveSteps :
    ∀ (addr : Addr) (n : Node) (t : String) (cs : List Node),
      getNode n addr = some (Node.elem t cs) →
      ∃ ss, stepsFrom n addr = some ss ∧ resolveSteps n ss = some addr := by
  intro addr
  induction addr with
  | nil =>
    intro n t cs h
    simp only [getNode, Option.some.injEq] at h
    subst h
    exact ⟨[], rfl, rfl⟩
  | cons i rest ih =>
    intro n t cs h
    cases n with
    | text s => simp [getNode] at h
    | elem nt ncs =>
      cases hg : ncs.get? i with
      | none =>
        simp only [getNode, hg] at h
        exact Option.noConfusion h
      | some c =>
        simp only [getNode, hg] at h
        have hc : ∃ ct ccs, c = Node.elem ct ccs := by
          cases c with
          | elem ct ccs => exact ⟨ct, ccs, rfl⟩
          | text s2 =>
            cases rest with
            | nil => simp [getNode] at h
            | cons j r => simp [getNode] at h
        obtain ⟨ct, ccs, rfl⟩ := hc
        obtain ⟨ss, h1, h2⟩ := ih (Node.elem ct ccs) t cs h
        refine ⟨(ct, sameTagIndex ncs i ct) :: ss, ?_, ?_⟩
        · simp only [stepsFrom, hg, h1]
        · simp only [resolveSteps]
          rw [findNthTagged_sameTagIndex ncs i _ ct hg rfl]
          simp [h2]

/-- XPath round trip on an unmodified document: the path recorded for an
element resolves back to exactly that element. -/
theorem xpathOfElem_roundtrip (doc : Node) (addr : Addr) (t : String) (cs : List Node)
    (h : getNode doc addr = some (Node.elem t cs)) :
    ∃ ss, xpathOfElem doc addr = some ss ∧ getNodeByXPath doc ss = some addr := by
  cases doc with
  | text s =>
    cases addr with
    | nil => simp [getNode] at h
    | cons i r => simp [getNode] at h
  | elem rt rcs =>
    obtain ⟨ss, h1, h2⟩ := stepsFrom_resolveSteps addr (Node.elem rt rcs) t cs h
    refine ⟨(rt, 0) :: ss, ?_, ?_⟩
    · simp only [xpathOfElem, h1]
    · simp only [getNodeByXPath]
      simp [h2]


/-- Counterexample for C1: on the unmodified doc1 the selection of the
whole text node " hello " produces a note whose stored text is the
trimmed "hello"; resolving the produced anchor yields exactly the
original range, whose text content is the untrimmed " hello ", different
from the trimmed text of the selection. -/
theorem roundtrip_trim_counterexample :
    createNote doc1 sel1 7 "x" "/g" = some note1 ∧
    locateNote doc1 note1 = some { sa := [0, 0, 0], so := 0, ea := [0, 0, 0], eo := 7 } ∧
    rangeTextStr doc1 [0, 0, 0] 0 [0, 0, 0] 7 = some " hello " ∧
    note1.text ≠ " hello " :=
  ⟨by decide, by decide, by decide, by decide⟩

/-- Claim C1 (corrected): the round trip resolve(encode(range)) returns
exactly the original range bounds, hence a range with the same text, on
an unmodified document, provided the selection text carries no leading
or trailing whitespace (otherwise the stored text is trimmed while the
resolved range still covers the untrimmed span, see
roundtrip_trim_counterexample) and provided the context-snippet search
returns the original boundary text nodes (the search takes the first
match in document order, so an earlier text node under the same
container that also contains the snippet middle would win instead). -/
theorem roundtrip_resolve_encode
    (doc : Node) (sel : Selection) (ts : Nat) (rand url : String) (note : Note)
    (ss es spt ept : String) (spcs epcs : List Node) (sRel eRel : Addr) (s : String)
    (hnote : createNote doc sel ts rand url = some note)
    (hsn : getNode doc sel.sa = some (Node.text ss))
    (hen : getNode doc sel.ea = some (Node.text es))
    (hsP : getNode doc sel.sa.dropLast = some (Node.elem spt spcs))
    (heP : getNode doc sel.ea.dropLast = some (Node.elem ept epcs))
    (hfs : findTextNode (Node.elem spt spcs) (getContextText (Node.text ss) sel.so) =
      some (sRel, ss))
    (hfe : findTextNode (Node.elem ept epcs) (getContextText (Node.text es) sel.eo) =
      some (eRel, es))
    (hsa : sel.sa.dropLast ++ sRel = sel.sa)
    (hea : sel.ea.dropLast ++ eRel = sel.ea)
    (hso : sel.so ≤ ss.length)
    (heo : sel.eo ≤ es.length)
    (horder : posLe doc (sel.sa, sel.so) (sel.ea, sel.eo) = true)
    (hstr : sel.str = s)
    (hrt : rangeTextStr doc sel.sa sel.so sel.ea sel.eo = some s)
    (htrim : jsTrim s = s) :
    locateNote doc note = some { sa := sel.sa, so := sel.so, ea := sel.ea, eo := sel.eo } ∧
    rangeTextStr doc sel.sa sel.so sel.ea sel.eo = some note.text := by
  obtain ⟨hid, htext, hts, hurl, pos, hpos, hnp⟩ := createNote_inv hnote
  obtain ⟨sSteps, hxs, hrs⟩ := xpathOfElem_roundtrip doc sel.sa.dropLast spt spcs hsP
  obtain ⟨eSteps, hxe, hre⟩ := xpathOfElem_roundtrip doc sel.ea.dropLast ept epcs heP
  have hgxs : getXPath doc sel.sa = some sSteps := by
    simp only [getXPath, hsn]
    exact hxs
  have hgxe : getXPath doc sel.ea = some eSteps := by
    simp only [getXPath, hen]
    exact hxe
  have hposval : pos =
      { startXPath := sSteps, endXPath := eSteps,
        startOffset := sel.so, endOffset := sel.eo,
        startText := getContextText (Node.text ss) sel.so,
        endText := getContextText (Node.text es) sel.eo } := by
    have hp := hpos
    simp only [getPositionInfo, hsn, hen, hgxs, hgxe, Option.some.injEq] at hp
    exact hp.symm
  constructor
  · simp only [locateNote, hnp, hposval, hrs, hre, hsP, heP, hfs, hfe]
    rw [if_pos hso, if_pos heo, hsa, hea]
    unfold mkRange
    rw [if_pos horder]
  · rw [htext, hstr, htrim]
    exact hrt

/-- Witness for C1: on doc2 with the whitespace-free selection "hello"
the round trip returns the original bounds and text. -/
theorem roundtrip_resolve_encode_witness :
    locateNote doc2 noteW3 = some { sa := sel2.sa, so := sel2.so, ea := sel2.ea, eo := sel2.eo } ∧
    rangeTextStr doc2 sel2.sa sel2.so sel2.ea sel2.eo = some noteW3.text :=
  roundtrip_resolve_encode doc2 sel2 7 "x" "/g" noteW3 "hello" "hello" "p" "p"
    [Node.text "hello"] [Node.text "hello"] [0] [0] "hello"
    (by decide) rfl rfl rfl rfl (by decide) (by decide)
    (by decide) (by decide) (by decide) (by decide) (by decide) (by decide) (by decide)
    (by decide)

/-- Counterexample for C3: the note created from the selection " hello "
on doc1 stores the trimmed text "hello", while the text bounded by its
AnchorDescriptor at creation time is the untrimmed " hello ". -/
theorem note_text_anchored_counterexample :
    createNote doc1 sel1 7 "x" "/g" = some note1 ∧
    note1.position.startOffset = 0 ∧ note1.position.endOffset = 7 ∧
    rangeTextStr doc1 [0, 0, 0] 0 [0, 0, 0] 7 = some " hello " ∧
    note1.text ≠ " hello " :=
  ⟨by decide, by decide, by decide, by decide, by decide⟩

/-- Claim C3 (corrected): at creation time the text field of a note is
the TRIMMED concatenation of the text bounded by its AnchorDescriptor
(the descriptor keeps the creation-time offsets and its paths resolve
back to the parents of the creation-time containers); the untrimmed
equality of the claim fails when the selection carries boundary
whitespace, see note_text_anchored_counterexample. -/
theorem note_text_anchored_trimmed
    (doc : Node) (sel : Selection) (ts : Nat) (rand url : String) (note : Note)
    (ss es spt ept : String) (spcs epcs : List Node) (s : String)
    (hnote : createNote doc sel ts rand url = some note)
    (hsn : getNode doc sel.sa = some (Node.text ss))
    (hen : getNode doc sel.ea = some (Node.text es))
    (hsP : getNode doc sel.sa.dropLast = some (Node.elem spt spcs))
    (heP : getNode doc sel.ea.dropLast = some (Node.elem ept epcs))
    (hstr : sel.str = s)
    (hrt : rangeTextStr doc sel.sa sel.so sel.ea sel.eo = some s) :
    note.text = jsTrim s ∧
    note.position.startOffset = sel.so ∧
    note.position.endOffset = sel.eo ∧
    getNodeByXPath doc note.position.startXPath = some sel.sa.dropLast ∧
    getNodeByXPath doc note.position.endXPath = some sel.ea.dropLast := by
  obtain ⟨hid, htext, hts, hurl, pos, hpos, hnp⟩ := createNote_inv hnote
  obtain ⟨sSteps, hxs, hrs⟩ := xpathOfElem_roundtrip doc sel.sa.dropLast spt spcs hsP
  obtain ⟨eSteps, hxe, hre⟩ := xpathOfElem_roundtrip doc sel.ea.dropLast ept epcs heP
  have hgxs : getXPath doc sel.sa = some sSteps := by
    simp only [getXPath, hsn]
    exact hxs
  have hgxe : getXPath doc sel.ea = some eSteps := by
    simp only [getXPath, hen]
    exact hxe
  have hposval : pos =
      { startXPath := sSteps, endXPath := eSteps,
        startOffset := sel.so, endOffset := sel.eo,
        startText := getContextText (Node.text ss) sel.so,
        endText := getContextText (Node.text es) sel.eo } := by
    have hp := hpos
    simp only [getPositionInfo, hsn, hen, hgxs, hgxe, Option.some.injEq] at hp
    exact hp.symm
  refine ⟨?_, ?_, ?_, ?_, ?_⟩
  · rw [htext, hstr]
  · rw [hnp, hposval]
  · rw [hnp, hposval]
  · rw [hnp, hposval]
    exact hrs
  · rw [hnp, hposval]
    exact hre

/-- Witness for C3: on doc2 the created note text is the trimmed span
text and the descriptor denotes the creation-time span. -/
theorem note_text_anchored_trimmed_witness :
    noteW3.text = jsTrim "hello" ∧
    noteW3.position.startOffset = sel2.so ∧
    noteW3.position.endOffset = sel2.eo ∧
    getNodeByXPath doc2 noteW3.position.startXPath = some sel2.sa.dropLast ∧
    getNodeByXPath doc2 noteW3.position.endXPath = some sel2.ea.dropLast :=
  note_text_anchored_trimmed doc2 sel2 7 "x" "/g" noteW3 "hello" "hello" "p" "p"
    [Node.text "hello"] [Node.text "hello"] "hello"
    (by decide) rfl rfl rfl rfl (by decide) (by decide)

/-- Looking up a concatenated address walks through the prefix first. -/
theorem getNode_append : ∀ (a b : Addr) (n : Node),
    getNode n (a ++ b) = (getNode n a).bind (fun x => getNode x b) := by
  intro a
  induction a with
  | nil => intro b n; simp [getNode]
  | cons i r ih =>
    intro b n
    cases n with
    | text s => simp [getNode]
    | elem t cs =>
      simp only [List.cons_append, getNode]
      cases cs.get? i with
      | none => rfl
      | some c => exact ih b c

/-- Replacing the node at an occupied address succeeds, and the lookup at
that address then returns the replacement. -/
theorem setNode_getNode : ∀ (a : Addr) (n x m : Node),
    getNode n a = some x →
    ∃ n2, setNode n a m = some n2 ∧ getNode n2 a = some m := by
  intro a
  induction a with
  | nil =>
    intro n x m _
    refine ⟨m, ?_, ?_⟩ <;> simp [setNode, getNode]
  | cons i r ih =>
    intro n x m h
    cases n with
    | text s => simp [getNode] at h
    | elem t cs =>
      cases hg : cs.get? i with
      | none =>
        simp only [getNode, hg] at h
        exact Option.noConfusion h
      | some c =>
        simp only [getNode, hg] at h
        obtain ⟨c2, hset, hget⟩ := ih c x m h
        refine ⟨Node.elem t (cs.set i c2), ?_, ?_⟩
        · simp only [setNode, hg, hset]
        · have hg2 : (cs.set i c2).get? i = some c2 := by
            rw [List.get?_set_eq, hg]
            rfl
          simp only [getNode, hg2, hget]

/-- Claim C9 (corrected): highlightRange is not idempotent.  After the
first call the range selects the wrapper span (as the DOM prescribes for
surroundContents); a second call on that same range is neither a no-op
nor a failure: it succeeds and wraps the first wrapper in a second
highlight span, double-wrapping the text.  What does hold is that the
first wrapper and its text are preserved intact inside the second one:
no corruption, but no idempotence either. -/
theorem highlightRange_double_wrap
    (doc : Node) (pa : Addr) (i : Nat) (pt t : String) (pcs : List Node) (so eo : Nat)
    (hp : getNode doc pa = some (Node.elem pt pcs))
    (hc : pcs.get? i = some (Node.text t))
    (hso : so ≤ eo) (heo : eo ≤ t.length) :
    ∃ d1 d2,
      highlightRange doc { sa := pa ++ [i], so := so, ea := pa ++ [i], eo := eo } =
        (d1, { sa := pa, so := i + 1, ea := pa, eo := i + 2 }) ∧
      getNode d1 pa = some (Node.elem pt
        (pcs.take i ++
          Node.text (jsSubstring t 0 so) ::
          Node.elem "span" [Node.text (jsSubstring t so eo)] ::
          Node.text (strDrop t eo) :: pcs.drop (i + 1))) ∧
      highlightRange d1 { sa := pa, so := i + 1, ea := pa, eo := i + 2 } =
        (d2, { sa := pa, so := i + 1, ea := pa, eo := i + 2 }) ∧
      getNode d2 pa = some (Node.elem pt
        (pcs.take i ++
          Node.text (jsSubstring t 0 so) ::
          Node.elem "span" [Node.elem "span" [Node.text (jsSubstring t so eo)]] ::
          Node.text (strDrop t eo) :: pcs.drop (i + 1))) := by
  obtain ⟨hiLen, -⟩ := List.get?_eq_some.mp hc
  have hlenTake : (pcs.take i).length = i := by
    rw [List.length_take]
    omega
  obtain ⟨d1, hset1, hget1⟩ := setNode_getNode pa doc (Node.elem pt pcs)
    (Node.elem pt
      (pcs.take i ++
        Node.text (jsSubstring t 0 so) ::
        Node.elem "span" [Node.text (jsSubstring t so eo)] ::
        Node.text (strDrop t eo) :: pcs.drop (i + 1))) hp
  have hgt : getNode doc (pa ++ [i]) = some (Node.text t) := by
    rw [getNode_append, hp]
    show getNode (Node.elem pt pcs) [i] = some (Node.text t)
    simp only [getNode, hc]
  have hsc1 : surroundContents doc { sa := pa ++ [i], so := so, ea := pa ++ [i], eo := eo } =
      some (d1, { sa := pa, so := i + 1, ea := pa, eo := i + 2 }) := by
    simp only [surroundContents, hgt, List.getLast?_concat, List.dropLast_concat, hp, hset1]
    simp [hso, heo]
  have hfirst : highlightRange doc { sa := pa ++ [i], so := so, ea := pa ++ [i], eo := eo } =
      (d1, { sa := pa, so := i + 1, ea := pa, eo := i + 2 }) := by
    simp only [highlightRange, hsc1]
  have hA : (pcs.take i ++
      Node.text (jsSubstring t 0 so) ::
      Node.elem "span" [Node.text (jsSubstring t so eo)] ::
      Node.text (strDrop t eo) :: pcs.drop (i + 1)).take (i + 1) =
      pcs.take i ++ [Node.text (jsSubstring t 0 so)] := by
    rw [List.take_append_eq_append_take, List.take_of_length_le (by omega), hlenTake]
    have h1 : i + 1 - i = 1 := by omega
    rw [h1]
    rfl
  have hD1 : (pcs.take i ++
      Node.text (jsSubstring t 0 so) ::
      Node.elem "span" [Node.text (jsSubstring t so eo)] ::
      Node.text (strDrop t eo) :: pcs.drop (i + 1)).drop (i + 1) =
      Node.elem "span" [Node.text (jsSubstring t so eo)] ::
      Node.text (strDrop t eo) :: pcs.drop (i + 1) := by
    rw [List.drop_append_eq_append_drop, List.drop_eq_nil_of_le (by omega), hlenTake]
    have h1 : i + 1 - i = 1 := by omega
    rw [h1]
    rfl
  have hD2 : (pcs.take i ++
      Node.text (jsSubstring t 0 so) ::
      Node.elem "span" [Node.text (jsSubstring t so eo)] ::
      Node.text (strDrop t eo) :: pcs.drop (i + 1)).drop (i + 2) =
      Node.text (strDrop t eo) :: pcs.drop (i + 1) := by
    rw [List.drop_append_eq_append_drop, List.drop_eq_nil_of_le (by omega), hlenTake]
    have h1 : i + 2 - i = 2 := by omega
    rw [h1]
    rfl
  have hlen2 : i + 2 ≤ (pcs.take i ++
      Node.text (jsSubstring t 0 so) ::
      Node.elem "span" [Node.text (jsSubstring t so eo)] ::
      Node.text (strDrop t eo) :: pcs.drop (i + 1)).length := by
    rw [List.length_append, hlenTake]
    simp only [List.length_cons]
    omega
  obtain ⟨d2, hset2, hget2⟩ := setNode_getNode pa d1
    (Node.elem pt
      (pcs.take i ++
        Node.text (jsSubstring t 0 so) ::
        Node.elem "span" [Node.text (jsSubstring t so eo)] ::
        Node.text (strDrop t eo) :: pcs.drop (i + 1)))
    (Node.elem pt
      (pcs.take i ++
        Node.text (jsSubstring t 0 so) ::
        Node.elem "span" [Node.elem "span" [Node.text (jsSubstring t so eo)]] ::
        Node.text (strDrop t eo) :: pcs.drop (i + 1))) hget1
  have h21 : i + 2 - (i + 1) = 1 := by omega
  have hsc2 : surroundContents d1 { sa := pa, so := i + 1, ea := pa, eo := i + 2 } =
      some (d2, { sa := pa, so := i + 1, ea := pa, eo := i + 2 }) := by
    simp only [surroundContents, hget1, h21, hA, hD1, hD2, List.take_succ_cons,
      List.take_zero, List.append_assoc, List.cons_append, List.nil_append, hset2]
    simp
    omega
  refine ⟨d1, d2, hfirst, hget1, ?_, hget2⟩
  simp only [highlightRange, hsc2]

/-- Counterexample for C9: wrapping characters 1-4 of the paragraph text
"hello" and then calling highlightRange again on the same range (which
now selects the wrapper) is neither a no-op nor a safe failure: the
document changes again, the wrapper span being wrapped in a second span. -/
theorem highlightRange_not_idempotent_cex :
    highlightRange docA { sa := [0], so := 1, ea := [0], eo := 4 } =
      (docB, { sa := [], so := 1, ea := [], eo := 2 }) ∧
    highlightRange docB { sa := [], so := 1, ea := [], eo := 2 } =
      (docC, { sa := [], so := 1, ea := [], eo := 2 }) ∧
    docC ≠ docB :=
  ⟨rfl, rfl, fun h => absurd (congrArg textNodesFrom h) (by decide)⟩

/-- Witness for C9: the double wrap on the concrete paragraph "hello". -/
theorem highlightRange_double_wrap_witness :
    ∃ d1 d2,
      highlightRange docA { sa := [0], so := 1, ea := [0], eo := 4 } =
        (d1, { sa := ([] : Addr), so := 1, ea := [], eo := 2 }) ∧
      getNode d1 [] = some (Node.elem "p"
        ([] ++ Node.text (jsSubstring "hello" 0 1) ::
          Node.elem "span" [Node.text (jsSubstring "hello" 1 4)] ::
          Node.text (strDrop "hello" 4) :: [])) ∧
      highlightRange d1 { sa := [], so := 1, ea := [], eo := 2 } =
        (d2, { sa := ([] : Addr), so := 1, ea := [], eo := 2 }) ∧
      getNode d2 [] = some (Node.elem "p"
        ([] ++ Node.text (jsSubstring "hello" 0 1) ::
          Node.elem "span" [Node.elem "span" [Node.text (jsSubstring "hello" 1 4)]] ::
          Node.text (strDrop "hello" 4) :: [])) :=
  highlightRange_double_wrap docA [] 0 "p" "hello" [Node.text "hello"] 1 4
    rfl rfl (by decide) (by decide)
